import Mathlib

/-!
Verification of the collection engine of a ProxySQL statistics exporter.

The development shallowly embeds the Go source (`main.go`) of the
exporter:

* `makeWhere` — the filter-clause compiler turning an operator-supplied
  pattern list into a SQL predicate fragment.  The Go function calls
  `os.Exit(1)` on an empty pattern entry; this is modelled by returning
  `none` (fatal process termination), while `some s` models a normal
  return of the fragment `s`.
* `buildDigestSQL` — the query text built inside `GetStatQueryDigest`.
* `NewConnect` — the lazily-created, reused global connection handle.
* `runCycle` — one iteration of the `GetStats` loop, recording which
  steps were attempted, every write to the `proxysql_up` gauge, and
  whether the process exited fatally.
* `mapPoolRow` — the row-to-gauge mapping performed for every row of
  the connection-pool pass (`GetStatConnectionPool`).
-/

set_option maxRecDepth 16384

deriving instance DecidableEq for Except

namespace ProxySQLExporter

/-- Go `strings.Trim(s, " ")`: remove all leading and trailing space
characters (and only spaces; other whitespace is kept). -/
def trimSpaces (s : String) : String :=
  ⟨((s.data.dropWhile (fun c => c == ' ')).reverse.dropWhile (fun c => c == ' ')).reverse⟩

/-- One per-pattern clause of the compiled fragment, exactly as produced by
`fmt.Sprintf("digest_text %s like %v", negation, strings.Trim(pattern, " "))`
in the source.  When `negation` is the empty string the interpolation leaves
a doubled space: `"digest_text  like <p>"`. -/
def clauseOf (negation p : String) : String :=
  "digest_text " ++ negation ++ " like " ++ trimSpaces p

/-- Helper: concatenation of a separator-prefixed copy of every element,
used to describe the tail of the fragment built by the compiler loop. -/
def sepJoined (sep : String) : List String → String
  | [] => ""
  | c :: rest => sep ++ c ++ sepJoined sep rest

/-- Loop body of `makeWhere` (source lines 190–200).  The index `i`
mirrors the Go loop index: a separator is emitted before every clause
except the one at index 0.  An entry of length 0 triggers `os.Exit(1)`,
modelled as `none`. -/
def makeWhereAux (union negation : String) : List String → Nat → Option String
  | [], _ => some ""
  | p :: rest, i =>
    if p.length ≠ 0 then
      match makeWhereAux union negation rest (i + 1) with
      | some s =>
        some ((if i ≠ 0 then " " ++ union ++ " " else "") ++ clauseOf negation p ++ s)
      | none => none
    else
      none

/-- The filter-clause compiler `makeWhere` (source lines 174–204).
`entryType = true` is INCLUDE mode (`union = "or"`, no negation);
`entryType = false` is EXCLUDE mode (`union = "and"`, `negation = "not"`).
Returns `none` when the Go function would terminate the process. -/
def makeWhere (lPattern : List String) (entryType : Bool) : Option String :=
  let union := if entryType then "or" else "and"
  let negation := if entryType then "" else "not"
  if lPattern.length ≠ 0 then
    match makeWhereAux union negation lPattern 0 with
    | some s => some ("and (" ++ s ++ ")")
    | none => none
  else
    some ""

/-- Text of the query-digest SQL up to and including the first
interpolation point, copied from the raw literal in `GetStatQueryDigest`. -/
def digestSQLHead : String :=
  "select ifnull(hg.comment, cast(qd.hostgroup as varchar)) as hostgroup,\n\t\tqd.schemaname,\n\t\tqd.digest,\n\t\tqd.digest_text,\n\t\tsum(qd.count_star) as count_star,\n\t\tmin(qd.min_time) as min_time,\n\t\tmax(qd.max_time) as max_time\n\tfrom stats_mysql_query_digest qd\n\t\tleft join runtime_mysql_replication_hostgroups hg on qd.hostgroup = hg.writer_hostgroup or qd.hostgroup = hg.reader_hostgroup\n\twhere (1=1) "

/-- Text of the query-digest SQL after the second interpolation point,
copied from the raw literal in `GetStatQueryDigest`. -/
def digestSQLTail : String :=
  " \n\tgroup by ifnull(hg.comment, cast(qd.hostgroup as varchar)), qd.schemaname, qd.digest, qd.digest_text order by qd.count_star desc\n\tlimit 10"

/-- The query text built by `GetStatQueryDigest` (source lines 346–357):
the include fragment and then the exclude fragment are spliced after the
always-true base predicate `(1=1)`.  `none` models the fatal exit taken
inside `makeWhere` on an empty pattern entry. -/
def buildDigestSQL (lIncludeQPattern lExcludeQPattern : List String) : Option String :=
  match makeWhere lIncludeQPattern true, makeWhere lExcludeQPattern false with
  | some wi, some we => some (digestSQLHead ++ wi ++ " " ++ we ++ digestSQLTail)
  | _, _ => none

/-- Result of one call to `NewConnect`: the new value of the global
handle, the returned value, and whether `sql.Open` was invoked. -/
structure AcquireResult where
  newState : Option Nat
  result : Except String Nat
  openAttempted : Bool
  deriving DecidableEq, Repr

/-- The connection manager `NewConnect` (source lines 161–172).  The
global `*sql.DB` is modelled as `Option Nat` (a handle identifier when
established).  `openResult` is the outcome `sql.Open` would produce if it
were invoked on this call. -/
def NewConnect (globalDB : Option Nat) (openResult : Except String Nat) : AcquireResult :=
  match globalDB with
  | some db => { newState := some db, result := Except.ok db, openAttempted := false }
  | none =>
    match openResult with
    | Except.ok db => { newState := some db, result := Except.ok db, openAttempted := true }
    | Except.error e => { newState := none, result := Except.error e, openAttempted := true }

/-- A sequence of `NewConnect` calls threading the global handle, one
entry of `opens` per call. -/
def runAcquires : Option Nat → List (Except String Nat) → List AcquireResult
  | _, [] => []
  | st, o :: os =>
    let r := NewConnect st o
    r :: runAcquires r.newState os

/-- Outcome of one sampling pass: success, a query-execution error, or a
row-scan error (both error kinds make the pass return a non-nil error). -/
inductive PassResult
  | success
  | queryError
  | scanError
  deriving DecidableEq, Repr

/-- Whether the pass returned a non-nil error to the `GetStats` loop. -/
def PassResult.failed : PassResult → Bool
  | .success => false
  | .queryError => true
  | .scanError => true

/-- The three I/O steps a `GetStats` cycle can attempt, in source order. -/
inductive Step
  | connect
  | poolPass
  | digestPass
  deriving DecidableEq, Repr

/-- Observable outcome of one iteration of the `GetStats` loop: the steps
attempted in order, every value written to the `proxysql_up` gauge in
order, and whether the process terminated fatally inside the iteration. -/
structure CycleResult where
  steps : List Step
  upWrites : List Int
  fatalExit : Bool
  deriving DecidableEq, Repr

/-- One iteration of the `GetStats` loop (source lines 210–237).
`connOk` is whether `NewConnect` returns a nil error, `poolR` the outcome
of `GetStatConnectionPool`, `digestR` the outcome of the query/scan part
of `GetStatQueryDigest`.  The digest pass first builds its SQL text
(which fatally exits the process when a pattern entry is empty) and only
then executes the query. -/
def runCycle (lIncludeQPattern lExcludeQPattern : List String) (connOk : Bool)
    (poolR digestR : PassResult) : CycleResult :=
  if connOk = false then
    { steps := [Step.connect], upWrites := [0], fatalExit := false }
  else if poolR.failed then
    { steps := [Step.connect, Step.poolPass], upWrites := [0], fatalExit := false }
  else
    match buildDigestSQL lIncludeQPattern lExcludeQPattern with
    | none =>
      { steps := [Step.connect, Step.poolPass, Step.digestPass], upWrites := [], fatalExit := true }
    | some _ =>
      if digestR.failed then
        { steps := [Step.connect, Step.poolPass, Step.digestPass], upWrites := [0],
          fatalExit := false }
      else
        { steps := [Step.connect, Step.poolPass, Step.digestPass], upWrites := [1],
          fatalExit := false }

/-- One scanned row of `stats.stats_mysql_connection_pool`, in the column
order of the `rows.Scan` call (source lines 259–275). -/
structure PoolRow where
  hostgroup : String
  srvHost : String
  srvPort : Int
  status : String
  connUsed : Int
  connFree : Int
  connOK : Int
  connERR : Int
  maxConnUsed : Int
  queries : Int
  queriesGTIDSync : Int
  bytesDataSent : Int
  bytesDataRecv : Int
  latencyUs : Int
  deriving DecidableEq, Repr

/-- One `gauge.With(labels).Set(value)` call recorded as data.  Metric
values are modelled as integers (the Go code converts the scanned `int`
with `float64(...)` before `Set`). -/
structure GaugeWrite where
  metric : String
  labels : List (String × String)
  value : Int
  deriving DecidableEq, Repr

/-- The label tuple attached to every gauge write of a connection-pool
row; `srv_port` is rendered with `fmt.Sprintf("%v", srvPort)`. -/
def poolLabels (r : PoolRow) : List (String × String) :=
  [("hostgroup", r.hostgroup), ("srv_host", r.srvHost),
   ("srv_port", toString r.srvPort), ("status", r.status)]

/-- The gauge writes performed for one connection-pool row, in source
order (source lines 282–336 of `GetStatConnectionPool`). -/
def mapPoolRow (r : PoolRow) : List GaugeWrite :=
  [{ metric := "proxysql_conn_error", labels := poolLabels r, value := r.connERR },
   { metric := "proxysql_conn_ok", labels := poolLabels r, value := r.connOK },
   { metric := "proxysql_conn_used", labels := poolLabels r, value := r.connUsed },
   { metric := "proxysql_conn_free", labels := poolLabels r, value := r.connFree },
   { metric := "proxysql_queries", labels := poolLabels r, value := r.queries },
   { metric := "proxysql_sent_bytes", labels := poolLabels r, value := r.bytesDataSent },
   { metric := "proxysql_recv_bytes", labels := poolLabels r, value := r.bytesDataRecv },
   { metric := "proxysql_latency_ns", labels := poolLabels r, value := r.latencyUs }]

/-- Join word selected by the compiler for each mode (source lines 181–187). -/
def joinWord (entryType : Bool) : String := if entryType then "or" else "and"

/-- Negation word selected by the compiler for each mode (source lines 181–187). -/
def negWord (entryType : Bool) : String := if entryType then "" else "not"

/-- Specification-level description of the compiled fragment: one clause
per pattern, in list order, joined by the mode's join word, wrapped in
`"and (" … ")"`; the empty list compiles to the empty fragment. -/
def fragmentSpec (lPattern : List String) (entryType : Bool) : String :=
  match lPattern with
  | [] => ""
  | p :: rest =>
    "and (" ++ (clauseOf (negWord entryType) p ++
      sepJoined (" " ++ joinWord entryType ++ " ") (rest.map (clauseOf (negWord entryType)))) ++ ")"

theorem strLength_eq_zero_iff (s : String) : s.length = 0 ↔ s = "" := by
  constructor
  · intro h
    cases s with
    | mk data =>
      cases data with
      | nil => rfl
      | cons c cs => simp [String.length] at h
  · intro h
    subst h
    rfl

theorem makeWhereAux_eq_none_iff (u n : String) (l : List String) :
    ∀ i, makeWhereAux u n l i = none ↔ "" ∈ l := by
  induction l with
  | nil =>
    intro i
    simp [makeWhereAux]
  | cons p rest ih =>
    intro i
    by_cases hp : p = ""
    · subst hp
      simp [makeWhereAux]
    · have hlen : p.length ≠ 0 := fun h0 => hp ((strLength_eq_zero_iff p).mp h0)
      have hp2 : "" ≠ p := Ne.symm hp
      rcases h : makeWhereAux u n rest (i + 1) with _ | s
      · have : "" ∈ rest := (ih (i + 1)).mp h
        simp [makeWhereAux, hlen, h, this]
      · have : "" ∉ rest := fun hm => by
          have hn := (ih (i + 1)).mpr hm
          rw [h] at hn
          exact Option.some_ne_none s hn
        simp [makeWhereAux, hlen, h, hp2, this]

theorem makeWhereAux_of_pos (u n : String) (l : List String) :
    ∀ i, i ≠ 0 → (∀ p ∈ l, p ≠ "") →
      makeWhereAux u n l i = some (sepJoined (" " ++ u ++ " ") (l.map (clauseOf n))) := by
  induction l with
  | nil =>
    intro i _ _
    simp [makeWhereAux, sepJoined]
  | cons p rest ih =>
    intro i hi hall
    have hp : p ≠ "" := hall p (List.mem_cons_self p rest)
    have hlen : p.length ≠ 0 := fun h0 => hp ((strLength_eq_zero_iff p).mp h0)
    have ihr := ih (i + 1) (Nat.succ_ne_zero i) (fun q hq => hall q (List.mem_cons_of_mem p hq))
    simp [makeWhereAux, hlen, ihr, hi, sepJoined]

theorem makeWhere_eq_some (l : List String) (b : Bool) (h : ∀ p ∈ l, p ≠ "") :
    makeWhere l b = some (fragmentSpec l b) := by
  cases l with
  | nil => cases b <;> rfl
  | cons p rest =>
    have hp : p ≠ "" := h p (List.mem_cons_self p rest)
    have hlen : p.length ≠ 0 := fun h0 => hp ((strLength_eq_zero_iff p).mp h0)
    have hrest := makeWhereAux_of_pos (joinWord b) (negWord b) rest 1 one_ne_zero
      (fun q hq => h q (List.mem_cons_of_mem p hq))
    simp only [joinWord, negWord] at hrest
    simp [makeWhere, makeWhereAux, hlen, hrest, fragmentSpec, joinWord, negWord,
      String.empty_append, String.append_assoc]

theorem makeWhere_eq_none_iff (l : List String) (b : Bool) :
    makeWhere l b = none ↔ "" ∈ l := by
  cases l with
  | nil => cases b <;> simp [makeWhere]
  | cons p rest =>
    have hiff := makeWhereAux_eq_none_iff (if b then "or" else "and")
      (if b then "" else "not") (p :: rest) 0
    rcases h : makeWhereAux (if b then "or" else "and") (if b then "" else "not")
        (p :: rest) 0 with _ | s
    · have : "" ∈ p :: rest := hiff.mp h
      simp [makeWhere, h, this]
    · have : "" ∉ p :: rest := fun hm => by
        have hn := hiff.mpr hm
        rw [h] at hn
        exact Option.some_ne_none s hn
      simp [makeWhere, h, this]

theorem trimSpaces_decomposition (s : String) :
    ∃ k m, s.data = List.replicate k ' ' ++ (trimSpaces s).data ++ List.replicate m ' ' := by
  have sp_mem : ∀ (l : List Char), ∃ n, l.takeWhile (fun c => c == ' ') = List.replicate n ' ' :=
    fun l => ⟨(l.takeWhile (fun c => c == ' ')).length,
      List.eq_replicate_of_mem (fun b hb => by
        have hbe := List.mem_takeWhile_imp hb
        simpa using hbe)⟩
  obtain ⟨k, hk⟩ := sp_mem s.data
  obtain ⟨m, hm⟩ := sp_mem (s.data.dropWhile (fun c => c == ' ')).reverse
  refine ⟨k, m, ?_⟩
  have hdata : (trimSpaces s).data =
      ((s.data.dropWhile (fun c => c == ' ')).reverse.dropWhile (fun c => c == ' ')).reverse := rfl
  have hsplit2 := List.takeWhile_append_dropWhile (p := fun c => c == ' ')
    (l := (s.data.dropWhile (fun c => c == ' ')).reverse)
  have hd : s.data.dropWhile (fun c => c == ' ') =
      ((s.data.dropWhile (fun c => c == ' ')).reverse.dropWhile (fun c => c == ' ')).reverse ++
        List.replicate m ' ' := by
    have h2 := congrArg List.reverse hsplit2
    rw [List.reverse_append, List.reverse_reverse] at h2
    rw [hm, List.reverse_replicate] at h2
    exact h2.symm
  have hsplit := List.takeWhile_append_dropWhile (p := fun c => c == ' ') (l := s.data)
  calc s.data
      = s.data.takeWhile (fun c => c == ' ') ++ s.data.dropWhile (fun c => c == ' ') :=
        hsplit.symm
    _ = List.replicate k ' ' ++
        (((s.data.dropWhile (fun c => c == ' ')).reverse.dropWhile (fun c => c == ' ')).reverse ++
          List.replicate m ' ') := by
        rw [hk]
        conv_lhs => rw [hd]
    _ = List.replicate k ' ' ++ (trimSpaces s).data ++ List.replicate m ' ' := by
        rw [hdata, List.append_assoc]

theorem runCycle_steps_cases (inc exc : List String) (connOk : Bool)
    (poolR digestR : PassResult) :
    (runCycle inc exc connOk poolR digestR).steps = [Step.connect] ∨
    (runCycle inc exc connOk poolR digestR).steps = [Step.connect, Step.poolPass] ∨
    (runCycle inc exc connOk poolR digestR).steps =
      [Step.connect, Step.poolPass, Step.digestPass] := by
  rcases h : buildDigestSQL inc exc with _ | s <;>
    cases connOk <;> cases poolR <;> cases digestR <;>
      simp [runCycle, h, PassResult.failed]

/-- C1: in the collection loop, every transient failure (connection
acquisition, either sampling pass, including row-scan failures) writes 0
to `proxysql_up` without terminating the process, full success of both
passes writes 1, and the gauge is written exactly once per cycle.  The
hypotheses exclude the separate configuration-error path (an entry that
is the empty string), which is fatal by design. -/
theorem GetStats_liveness_once_per_cycle
    (inc exc : List String) (connOk : Bool) (poolR digestR : PassResult)
    (hinc : "" ∉ inc) (hexc : "" ∉ exc) :
    (runCycle inc exc connOk poolR digestR).fatalExit = false ∧
    (runCycle inc exc connOk poolR digestR).upWrites =
      [if connOk && !poolR.failed && !digestR.failed then 1 else 0] := by
  have hwi0 : makeWhere inc true ≠ none := fun h => hinc ((makeWhere_eq_none_iff inc true).mp h)
  have hwe0 : makeWhere exc false ≠ none := fun h => hexc ((makeWhere_eq_none_iff exc false).mp h)
  obtain ⟨wi, hwi⟩ := Option.ne_none_iff_exists'.mp hwi0
  obtain ⟨we, hwe⟩ := Option.ne_none_iff_exists'.mp hwe0
  have hbuild : buildDigestSQL inc exc =
      some (digestSQLHead ++ wi ++ " " ++ we ++ digestSQLTail) := by
    simp [buildDigestSQL, hwi, hwe]
  cases connOk <;> cases poolR <;> cases digestR <;>
    simp [runCycle, hbuild, PassResult.failed]

theorem GetStats_liveness_once_per_cycle_witness :
    (runCycle ["select%"] ["%admin%"] true PassResult.success PassResult.scanError).fatalExit
      = false ∧
    (runCycle ["select%"] ["%admin%"] true PassResult.success PassResult.scanError).upWrites
      = [0] :=
  GetStats_liveness_once_per_cycle ["select%"] ["%admin%"] true PassResult.success
    PassResult.scanError (by decide) (by decide)

/-- C2 counterexample: the compiled include clause is not of the literal
form `digest_text like <pattern>` — the empty negation slot leaves a
doubled space, `digest_text  like <pattern>`. -/
theorem makeWhere_include_clause_shape_counterexample :
    makeWhere ["a"] true ≠ some "and (digest_text like a)" ∧
    makeWhere ["a"] true = some "and (digest_text  like a)" := by
  constructor
  · decide
  · rfl

/-- C2 (amended): the include-mode compiler returns the empty fragment on
an empty list, and for a non-empty list of non-empty patterns it returns
`"and ("` followed by one clause `digest_text  like <trimmed pattern>`
(with a doubled space from the empty negation slot) per pattern, in list
order, joined by `" or "`, followed by `")"`. -/
theorem makeWhere_include_fragment :
    makeWhere [] true = some "" ∧
    ∀ (p : String) (rest : List String), p ≠ "" → (∀ q ∈ rest, q ≠ "") →
      makeWhere (p :: rest) true =
        some ("and (" ++ ("digest_text  like " ++ trimSpaces p ++
          sepJoined " or " (rest.map (fun q => "digest_text  like " ++ trimSpaces q))) ++ ")") := by
  refine ⟨rfl, ?_⟩
  intro p rest hp hr
  exact makeWhere_eq_some (p :: rest) true (by
    intro q hq
    rcases List.mem_cons.mp hq with rfl | hq2
    · exact hp
    · exact hr q hq2)

theorem makeWhere_include_fragment_witness :
    makeWhere ["a", "b%"] true = some "and (digest_text  like a or digest_text  like b%)" :=
  makeWhere_include_fragment.2 "a" ["b%"] (by decide) (by decide)

/-- C3 counterexample: in EXCLUDE mode the clauses are joined by the word
`and`, not by `or` as the claim states. -/
theorem makeWhere_exclude_join_word_counterexample :
    makeWhere ["a", "b"] false ≠ some "and (digest_text not like a or digest_text not like b)" ∧
    makeWhere ["a", "b"] false = some "and (digest_text not like a and digest_text not like b)" := by
  constructor
  · decide
  · rfl

/-- C3 (amended): in EXCLUDE mode every per-pattern clause carries the
negation word `not` (`digest_text not like <trimmed pattern>`), and the
clauses are joined by the word `and` — a different join word from INCLUDE
mode, whose join word is `or`. -/
theorem makeWhere_exclude_fragment :
    (∀ (p : String) (rest : List String), p ≠ "" → (∀ q ∈ rest, q ≠ "") →
      makeWhere (p :: rest) false =
        some ("and (" ++ ("digest_text not like " ++ trimSpaces p ++
          sepJoined " and " (rest.map (fun q => "digest_text not like " ++ trimSpaces q))) ++ ")")) ∧
    joinWord false = "and" ∧ joinWord true = "or" := by
  refine ⟨?_, rfl, rfl⟩
  intro p rest hp hr
  exact makeWhere_eq_some (p :: rest) false (by
    intro q hq
    rcases List.mem_cons.mp hq with rfl | hq2
    · exact hp
    · exact hr q hq2)

theorem makeWhere_exclude_fragment_witness :
    makeWhere ["a", "b"] false = some "and (digest_text not like a and digest_text not like b)" :=
  makeWhere_exclude_fragment.1 "a" ["b"] (by decide) (by decide)

/-- C4 counterexample: a pattern list whose entry `" "` is empty after
trimming does not terminate the process (the emptiness check runs on the
untrimmed entry), and for an entry that is truly empty the fatal exit
happens only in the digest pass, after the connection-pool query of the
same cycle has already executed. -/
theorem makeWhere_space_entry_counterexample :
    trimSpaces " " = "" ∧
    makeWhere [" "] true = some "and (digest_text  like )" ∧
    (runCycle [""] [] true PassResult.success PassResult.success).steps =
      [Step.connect, Step.poolPass, Step.digestPass] ∧
    (runCycle [""] [] true PassResult.success PassResult.success).fatalExit = true := by
  exact ⟨rfl, rfl, rfl, rfl⟩

/-- C4 (amended): the compiler terminates the process fatally exactly for
lists containing an entry that is the empty string; the termination
happens while the digest query text is being built, before the
query-digest query is executed (the cycle result is independent of the
digest query outcome), though after the connection-pool pass of the same
cycle.  Lists without a truly empty entry — including all-space entries —
never terminate. -/
theorem makeWhere_fatal_only_on_truly_empty :
    (∀ (inc exc : List String) (connOk : Bool) (poolR d d' : PassResult),
      ("" ∈ inc ∨ "" ∈ exc) → connOk = true → poolR = PassResult.success →
      (runCycle inc exc connOk poolR d).fatalExit = true ∧
      runCycle inc exc connOk poolR d = runCycle inc exc connOk poolR d') ∧
    (∀ (l : List String) (b : Bool), "" ∉ l → makeWhere l b ≠ none) := by
  constructor
  · intro inc exc connOk poolR d d' hmem hc hpool
    subst hc
    subst hpool
    have hbuild : buildDigestSQL inc exc = none := by
      rcases hmem with h | h
      · have hi : makeWhere inc true = none := (makeWhere_eq_none_iff inc true).mpr h
        simp [buildDigestSQL, hi]
      · have he : makeWhere exc false = none := (makeWhere_eq_none_iff exc false).mpr h
        rcases hi : makeWhere inc true with _ | wi <;> simp [buildDigestSQL, hi, he]
    constructor <;> simp [runCycle, hbuild, PassResult.failed]
  · intro l b h hn
    exact h ((makeWhere_eq_none_iff l b).mp hn)

theorem makeWhere_fatal_only_on_truly_empty_witness :
    (runCycle ["", "a"] [] true PassResult.success PassResult.success).fatalExit = true ∧
    makeWhere ["x"] true ≠ none :=
  ⟨(makeWhere_fatal_only_on_truly_empty.1 ["", "a"] [] true PassResult.success
      PassResult.success PassResult.queryError (Or.inl (by decide)) rfl rfl).1,
    makeWhere_fatal_only_on_truly_empty.2 ["x"] true (by decide)⟩

/-- C5: the query-digest SQL text splices the compiled include fragment
and then the compiled exclude fragment after the always-true base
predicate `(1=1)` of the WHERE clause, orders by execution count
descending, and is capped at 10 rows. -/
theorem GetStatQueryDigest_sql_structure
    (inc exc : List String) (wi we : String)
    (hwi : makeWhere inc true = some wi) (hwe : makeWhere exc false = some we) :
    buildDigestSQL inc exc = some (digestSQLHead ++ wi ++ " " ++ we ++ digestSQLTail) ∧
    (∃ s, digestSQLHead = s ++ "where (1=1) ") ∧
    (∃ t, digestSQLTail = t ++ "order by qd.count_star desc\n\tlimit 10") := by
  refine ⟨by simp [buildDigestSQL, hwi, hwe], ⟨?_, ?_⟩, ⟨?_, ?_⟩⟩
  · exact "select ifnull(hg.comment, cast(qd.hostgroup as varchar)) as hostgroup,\n\t\tqd.schemaname,\n\t\tqd.digest,\n\t\tqd.digest_text,\n\t\tsum(qd.count_star) as count_star,\n\t\tmin(qd.min_time) as min_time,\n\t\tmax(qd.max_time) as max_time\n\tfrom stats_mysql_query_digest qd\n\t\tleft join runtime_mysql_replication_hostgroups hg on qd.hostgroup = hg.writer_hostgroup or qd.hostgroup = hg.reader_hostgroup\n\t"
  · rfl
  · exact " \n\tgroup by ifnull(hg.comment, cast(qd.hostgroup as varchar)), qd.schemaname, qd.digest, qd.digest_text "
  · rfl

theorem GetStatQueryDigest_sql_structure_witness :
    buildDigestSQL [] [] = some (digestSQLHead ++ "" ++ " " ++ "" ++ digestSQLTail) :=
  (GetStatQueryDigest_sql_structure [] [] "" "" rfl rfl).1

/-- C6: the connection manager opens a handle only when none exists; once
a handle is established, every later call reuses that same handle without
invoking `sql.Open` and never closes or replaces it; in a run whose first
open succeeds, an open is attempted only on the first call. -/
theorem NewConnect_reuse_invariant :
    (∀ (db : Nat) (o : Except String Nat),
      NewConnect (some db) o =
        { newState := some db, result := Except.ok db, openAttempted := false }) ∧
    (∀ (db : Nat) (os : List (Except String Nat)) (r : AcquireResult),
      r ∈ runAcquires (some db) os →
      r.newState = some db ∧ r.result = Except.ok db ∧ r.openAttempted = false) ∧
    (∀ (o : Except String Nat), (NewConnect none o).openAttempted = true) ∧
    (∀ (db : Nat) (os : List (Except String Nat)),
      runAcquires none (Except.ok db :: os) =
        { newState := some db, result := Except.ok db, openAttempted := true } ::
          runAcquires (some db) os) := by
  refine ⟨fun db o => rfl, ?_, fun o => by cases o <;> rfl, fun db os => rfl⟩
  intro db os
  induction os with
  | nil =>
    intro r hr
    simp [runAcquires] at hr
  | cons o os ih =>
    intro r hr
    have hstep : runAcquires (some db) (o :: os) =
        { newState := some db, result := Except.ok db, openAttempted := false } ::
          runAcquires (some db) os := rfl
    rw [hstep] at hr
    rcases List.mem_cons.mp hr with rfl | hr2
    · exact ⟨rfl, rfl, rfl⟩
    · exact ih r hr2

theorem NewConnect_reuse_invariant_witness :
    (NewConnect (some 7) (Except.error "broken")).openAttempted = false ∧
    (NewConnect (some 7) (Except.error "broken")).result = Except.ok 7 := by
  have h := NewConnect_reuse_invariant.1 7 (Except.error "broken")
  exact ⟨by rw [h], by rw [h]⟩

/-- C7 counterexample: the connection-pool row mapper performs eight gauge
writes per row, not seven as the claim states. -/
theorem mapPoolRow_not_seven_counterexample :
    (mapPoolRow ⟨"hg0", "db1", 3306, "ONLINE", 1, 2, 3, 4, 5, 6, 7, 8, 9, 10⟩).length ≠ 7 := by
  decide

/-- C7 (amended): for every connection-pool row, the mapper writes exactly
eight numeric field values into eight distinctly named gauge metrics, each
under the identical four-element label tuple taken from that row, with the
row's exact field values. -/
theorem mapPoolRow_writes (r : PoolRow) :
    (mapPoolRow r).length = 8 ∧
    ((mapPoolRow r).map GaugeWrite.metric).Nodup ∧
    (∀ w ∈ mapPoolRow r, w.labels = poolLabels r) ∧
    (mapPoolRow r).map (fun w => (w.metric, w.value)) =
      [("proxysql_conn_error", r.connERR), ("proxysql_conn_ok", r.connOK),
       ("proxysql_conn_used", r.connUsed), ("proxysql_conn_free", r.connFree),
       ("proxysql_queries", r.queries), ("proxysql_sent_bytes", r.bytesDataSent),
       ("proxysql_recv_bytes", r.bytesDataRecv), ("proxysql_latency_ns", r.latencyUs)] := by
  refine ⟨rfl, ?_, ?_, rfl⟩
  · rw [show (mapPoolRow r).map GaugeWrite.metric =
      ["proxysql_conn_error", "proxysql_conn_ok", "proxysql_conn_used", "proxysql_conn_free",
       "proxysql_queries", "proxysql_sent_bytes", "proxysql_recv_bytes", "proxysql_latency_ns"]
      from rfl]
    decide
  · intro w hw
    simp only [mapPoolRow, List.mem_cons, List.not_mem_nil, or_false] at hw
    rcases hw with rfl | rfl | rfl | rfl | rfl | rfl | rfl | rfl <;> rfl

theorem mapPoolRow_writes_witness :
    (mapPoolRow ⟨"writer", "10.0.0.2", 6032, "SHUNNED", 11, 12, 13, 14, 15, 16, 17, 18, 19, 20⟩).length = 8 :=
  (mapPoolRow_writes ⟨"writer", "10.0.0.2", 6032, "SHUNNED", 11, 12, 13, 14, 15, 16, 17, 18, 19, 20⟩).1

/-- C8 counterexample: a pattern with surrounding spaces is not inserted
verbatim — `strings.Trim(pattern, " ")` removes its leading and trailing
space characters before splicing. -/
theorem makeWhere_not_verbatim_counterexample :
    makeWhere [" a% "] true ≠ some "and (digest_text  like  a% )" ∧
    makeWhere [" a% "] true = some "and (digest_text  like a%)" := by
  constructor
  · decide
  · rfl

/-- C8 (amended): each pattern is spliced into the fragment after removal
of its leading and trailing space characters only — the trimmed remainder
(every interior character) is inserted verbatim, with no escaping and no
parameterization. -/
theorem makeWhere_trim_only :
    (∀ s : String,
      ∃ k m, s.data = List.replicate k ' ' ++ (trimSpaces s).data ++ List.replicate m ' ') ∧
    (∀ (l : List String) (b : Bool), (∀ p ∈ l, p ≠ "") →
      makeWhere l b = some (fragmentSpec l b)) :=
  ⟨trimSpaces_decomposition, fun l b h => makeWhere_eq_some l b h⟩

theorem makeWhere_trim_only_witness :
    makeWhere [" a% "] true = some (fragmentSpec [" a% "] true) :=
  makeWhere_trim_only.2 [" a% "] true (by decide)

/-- C9: every cycle attempts its steps in the order connect, then
connection-pool pass, then query-digest pass (the attempted steps are
always a prefix of that sequence, so no step repeats within a cycle); a
connection failure ends the cycle with only the connect step attempted,
and a pool-pass failure ends it without attempting the digest pass. -/
theorem GetStats_pass_order (inc exc : List String) (connOk : Bool)
    (poolR digestR : PassResult) :
    (∃ t, (runCycle inc exc connOk poolR digestR).steps ++ t =
      [Step.connect, Step.poolPass, Step.digestPass]) ∧
    (connOk = false → (runCycle inc exc connOk poolR digestR).steps = [Step.connect]) ∧
    (connOk = true → poolR.failed = true →
      (runCycle inc exc connOk poolR digestR).steps = [Step.connect, Step.poolPass]) := by
  refine ⟨?_, fun hc => ?_, fun hc hp => ?_⟩
  · rcases runCycle_steps_cases inc exc connOk poolR digestR with h | h | h
    · exact ⟨[Step.poolPass, Step.digestPass], by rw [h]; rfl⟩
    · exact ⟨[Step.digestPass], by rw [h]; rfl⟩
    · exact ⟨[], by rw [h]; rfl⟩
  · subst hc
    rfl
  · subst hc
    cases poolR with
    | success => simp [PassResult.failed] at hp
    | queryError => rfl
    | scanError => rfl

theorem GetStats_pass_order_witness :
    (runCycle ["a"] [] true PassResult.queryError PassResult.success).steps =
      [Step.connect, Step.poolPass] :=
  (GetStats_pass_order ["a"] [] true PassResult.queryError PassResult.success).2.2 rfl rfl

/-- C10: the compiler terminates the process if and only if the pattern
list contains an entry that is exactly the empty string; an entry of only
spaces passes the emptiness check and, being trimmed during splicing,
yields a clause whose LIKE operand is the empty string. -/
theorem makeWhere_exit_iff_empty_entry :
    (∀ (l : List String) (b : Bool), makeWhere l b = none ↔ "" ∈ l) ∧
    makeWhere ["   "] true = some "and (digest_text  like )" :=
  ⟨makeWhere_eq_none_iff, rfl⟩

end ProxySQLExporter
